import Mathlib

/-!
Shallow embedding of the durable webhook delivery engine
(src/services/new-architecture/webhook-consumer/src/main.rs).

The Rust service is modelled as pure state-passing code:
* external effects (enrichment HTTP fetch, outbound webhook POST, random
  UUID generation, wall clock) are supplied by an oracle environment `Env`,
  indexed by per-effect call counters held in the `World` state;
* the in-memory journal (`HashMap<String, ProcessedEvent>`) is an
  association list with HashMap lookup/insert semantics;
* `handle_event` and the Kafka ingestion loop (`main`) are translated
  statement by statement, including the bounded retry loop with
  exponential backoff.
-/

/-- Mirror of struct DomainEvent (main.rs lines 25-32).  The opaque
serde_json payload is modelled as a string. -/
structure DomainEvent where
  id : Nat
  event_type : String
  object_id : String
  merchant_id : String
  payload : String
deriving Repr, DecidableEq

/-- Mirror of struct SequinMessage (main.rs lines 34-40). -/
structure SequinMessage where
  record : DomainEvent
  metadata : String
  action : String
  changes : Option String
deriving Repr, DecidableEq

/-- Mirror of struct ProcessedEvent (main.rs lines 42-48), the journal
entry type.  Note: it has no state field; an entry exists only for
successfully delivered events. -/
structure ProcessedEvent where
  event_id : String
  merchant_webhook_id : String
  retries : Nat
  last_retry_at : String
deriving Repr, DecidableEq

/-- The JSON body built in handle_event (main.rs lines 182-186):
`serde_json::json!({event_id, event_type, payment})` with the brace
punning elided. -/
structure WebhookBody where
  event_id : String
  event_type : String
  payment : String
deriving Repr, DecidableEq

/-- Oracle environment standing for the outside world.  Each effectful
call made by the service is resolved by indexing the oracle with the
number of calls of that kind made so far. -/
structure Env where
  /-- Result of the n-th enrichment fetch
  (GET data_service_url/payload/object_id): `some payload` on a 2xx JSON
  response, `none` on timeout / error status / undecodable body (the
  paths the source's `?` operator turns into an early error return). -/
  enrichResp : Nat → Option String
  /-- Outcome of the n-th outbound webhook POST: `true` iff
  `error_for_status` passes (2xx). -/
  sendResp : Nat → Bool
  /-- The n-th value produced by the process's random UUID generator
  (Uuid new_v4), rendered in hyphenated form. -/
  freshUuid : Nat → String
  /-- The wall-clock timestamp string observed at the n-th send. -/
  now : Nat → String

/-- Mutable state threaded through a run: the journal plus effect-call
counters and observable traces (outbound bodies sent, backoff sleeps in
milliseconds). -/
structure World where
  journal : List (String × ProcessedEvent)
  enrichCalls : Nat
  sendCalls : List WebhookBody
  sleeps : List Nat
  uuidCalls : Nat
deriving Repr, DecidableEq

/-- HashMap get: first entry with the given key. -/
def lookupJ (j : List (String × ProcessedEvent)) (k : String) : Option ProcessedEvent :=
  match j with
  | [] => none
  | (k1, v) :: rest => if k1 = k then some v else lookupJ rest k

/-- HashMap insert: replace any existing entry for the key. -/
def insertJ (j : List (String × ProcessedEvent)) (k : String) (v : ProcessedEvent) :
    List (String × ProcessedEvent) :=
  (k, v) :: j.filter (fun q => q.1 ≠ k)

/-- Lower-case hexadecimal digit test, used by the UUID parser model. -/
def isHexLower (c : Char) : Bool :=
  (decide ('0' ≤ c) && decide (c ≤ '9')) || (decide ('a' ≤ c) && decide (c ≤ 'f'))

/-- Hexadecimal digit test, either case (the uuid crate parses
case-insensitively). -/
def isHexDigitChar (c : Char) : Bool :=
  isHexLower c || (decide ('A' ≤ c) && decide (c ≤ 'F'))

/-- Lower-case a hexadecimal letter; on the characters a validated UUID
can contain, this is exactly case normalisation. -/
def lowerHexChar (c : Char) : Char :=
  if c = 'A' then 'a' else if c = 'B' then 'b' else if c = 'C' then 'c'
  else if c = 'D' then 'd' else if c = 'E' then 'e' else if c = 'F' then 'f' else c

/-- Model of `Uuid::parse_str` for its two common input forms: the
hyphenated 8-4-4-4-12 layout and the simple 32-hex-digit layout
(case-insensitive, like the uuid crate).  Returns the canonical
lower-case hyphenated rendering, which is how a parsed Uuid serializes
into the JSON body. -/
def uuidParse (s : String) : Option String :=
  let cs := s.toList
  if cs.length == 36 &&
      (List.range 36).all (fun i =>
        if [8, 13, 18, 23].contains i then cs.getD i ' ' == '-'
        else isHexDigitChar (cs.getD i ' '))
  then some (String.mk (cs.map lowerHexChar))
  else if cs.length == 32 && cs.all isHexDigitChar then
    let ds := cs.map lowerHexChar
    some (String.mk ((ds.take 8) ++ '-' :: ((ds.drop 8).take 4) ++ '-' ::
      ((ds.drop 12).take 4) ++ '-' :: ((ds.drop 16).take 4) ++ '-' :: ds.drop 20))
  else none

/-- The stable journal key computed in main (line 101):
`format!("evt_{}", event.object_id)`. -/
def mkEventId (e : DomainEvent) : String := "evt_" ++ e.object_id

/-- `max_retries` (main.rs line 178). -/
def max_retries : Nat := 3

/-- `backoff_ms = 1000 * 2^(retries - 1)` (main.rs line 220). -/
def backoff_ms (retries : Nat) : Nat := 1000 * 2 ^ (retries - 1)

/-- Error text standing for a failed send's `e.to_string()`. -/
def sendErrorMsg : String := "send failed"

/-- Error text standing for the reqwest error propagated by `?` when the
enrichment fetch fails (main.rs lines 157-163). -/
def enrichErrorMsg : String := "enrichment fetch failed"

/-- The `loop` of handle_event, Step 3 (main.rs lines 181-228): build the
body, send it; on success insert the journal entry and return Ok; on
failure increment `retries`, return Err once `retries >= max_retries`,
otherwise sleep the exponential backoff and loop. -/
def deliveryLoop (env : Env) (event_uuid event_type payment event_id merchant_webhook_id : String)
    (retries : Nat) (w : World) : Except String Unit × World :=
  let body : WebhookBody := ⟨event_uuid, event_type, payment⟩
  let sendIdx := w.sendCalls.length
  let w1 : World := { w with sendCalls := w.sendCalls ++ [body] }
  if env.sendResp sendIdx then
    let entry : ProcessedEvent :=
      ⟨event_id, merchant_webhook_id, retries, env.now sendIdx⟩
    (Except.ok (), { w1 with journal := insertJ w1.journal event_id entry })
  else
    let retries1 := retries + 1
    if max_retries ≤ retries1 then
      (Except.error ("Max retries exceeded: " ++ sendErrorMsg), w1)
    else
      let w2 : World := { w1 with sleeps := w1.sleeps ++ [backoff_ms retries1] }
      deliveryLoop env event_uuid event_type payment event_id merchant_webhook_id retries1 w2
termination_by max_retries - retries
decreasing_by simp only [max_retries] at *; omega

/-- handle_event (main.rs lines 132-229).
Step 1: journal lookup; any hit returns Ok immediately.
Step 2: fetch the fresh payload (one fetch, before the retry loop);
a fetch failure propagates as an error via `?`.
Step 3: compute `merchant_webhook_id = wh_<new_v4>` and
`event_uuid = Uuid::parse_str(object_id).unwrap_or_else(new_v4)`, then
run the retry loop starting at `retries = 0`. -/
def handle_event (env : Env) (w : World) (event_id : String) (event : DomainEvent) :
    Except String Unit × World :=
  match lookupJ w.journal event_id with
  | some _ => (Except.ok (), w)
  | none =>
    let fetchIdx := w.enrichCalls
    let w1 : World := { w with enrichCalls := w.enrichCalls + 1 }
    match env.enrichResp fetchIdx with
    | none => (Except.error enrichErrorMsg, w1)
    | some payload =>
      let merchant_webhook_id := "wh_" ++ env.freshUuid w1.uuidCalls
      let w2 : World := { w1 with uuidCalls := w1.uuidCalls + 1 }
      match uuidParse event.object_id with
      | some u =>
        deliveryLoop env u event.event_type payload event_id merchant_webhook_id 0 w2
      | none =>
        let event_uuid := env.freshUuid w2.uuidCalls
        let w3 : World := { w2 with uuidCalls := w2.uuidCalls + 1 }
        deliveryLoop env event_uuid event.event_type payload event_id merchant_webhook_id 0 w3

/-- Whether a handle_event result is the Ok branch of main's match
(main.rs lines 113-119). -/
def isOkE (r : Except String Unit) : Bool :=
  match r with
  | Except.ok _ => true
  | Except.error _ => false

/-- Observable outcome of one iteration of main's consume loop:
a deserialization failure is logged and skipped (main.rs lines 121-124);
a decoded event is handed to handle_event whose result is only logged
(lines 113-119).  The source loop has no exit or panic path for either
case. -/
inductive IngestOutcome where
  | decodeError
  | handled (event_id : String) (ok : Bool)
deriving Repr, DecidableEq

/-- The consume loop of main (main.rs lines 84-129) run over a finite
prefix of the Kafka stream.  Each element is the serde decode result of
one record's payload (`none` = malformed).  Returns the final world and
the per-record outcomes; the loop body neither commits offsets nor stops
on errors, so every record yields exactly one outcome. -/
def ingestRun (env : Env) (w : World) :
    List (Option SequinMessage) → World × List IngestOutcome
  | [] => (w, [])
  | r0 :: rest =>
    match r0 with
    | none =>
      let rec1 := ingestRun env w rest
      (rec1.1, IngestOutcome.decodeError :: rec1.2)
    | some msg =>
      let eid := mkEventId msg.record
      let res := handle_event env w eid msg.record
      let rec1 := ingestRun env res.2 rest
      (rec1.1, IngestOutcome.handled eid (isOkE res.1) :: rec1.2)

/-- A sequence of handle_event invocations as main performs them, one per
decoded event, with the journal key computed by mkEventId. -/
def runEvents (env : Env) (w : World) : List DomainEvent → World
  | [] => w
  | e :: rest => runEvents env (handle_event env w (mkEventId e) e).2 rest

/-! Formalisations of spec claims that turn out to be false of the code,
stated as named propositions so their refutations are explicit. -/

/-- Claim C2's crash-safety core: every well-formed event received by the
ingestion loop ends up with some journal record (delivered or permanent
failure) once the loop has processed its batch — no event is silently
dropped without a trace. -/
def HandledImpliesRecorded : Prop :=
  ∀ (env : Env) (w : World) (msgs : List (Option SequinMessage)) (msg : SequinMessage),
    some msg ∈ msgs →
    lookupJ (ingestRun env w msgs).1.journal (mkEventId msg.record) ≠ none

/-- Claim C4's core: whenever handle_event returns a permanent failure,
a (Failed) journal entry exists afterwards for the event's identifier. -/
def FailedEntryWritten : Prop :=
  ∀ (env : Env) (w : World) (eid : String) (ev : DomainEvent) (e : String) (w2 : World),
    handle_event env w eid ev = (Except.error e, w2) →
    lookupJ w2.journal eid ≠ none

/-- Claim C5's core: the event_id field of every outbound body is a
deterministic function of the event's objectId alone (hence identical
across process restarts and log redeliveries). -/
def EventIdFromObjectId : Prop :=
  ∃ f : String → String,
    ∀ (env : Env) (w : World) (eid : String) (ev : DomainEvent),
      ∀ b ∈ ((handle_event env w eid ev).2.sendCalls).drop w.sendCalls.length,
        b.event_id = f ev.object_id

/-- Claim C6's core: every outbound delivery attempt is preceded by its
own fresh enrichment fetch, so one handle_event invocation performs at
least as many fetches as sends. -/
def FreshPerAttempt : Prop :=
  ∀ (env : Env) (w : World) (eid : String) (ev : DomainEvent),
    ((handle_event env w eid ev).2.sendCalls).length - w.sendCalls.length ≤
      (handle_event env w eid ev).2.enrichCalls - w.enrichCalls

/-- Claim C7's core: a transient enrichment failure (first fetch fails,
later fetches would succeed, delivery would succeed) is retried within
handle_event, so more than one fetch is made. -/
def EnrichRetried : Prop :=
  ∀ (env : Env) (w : World) (eid : String) (ev : DomainEvent),
    lookupJ w.journal eid = none →
    env.enrichResp w.enrichCalls = none →
    (∀ n, n ≠ w.enrichCalls → ∃ v, env.enrichResp n = some v) →
    (∀ n, env.sendResp n = true) →
    w.enrichCalls + 1 < (handle_event env w eid ev).2.enrichCalls

/-- Claim C8's core: there is a bound b such that b consecutive malformed
records make the ingestion loop do something other than uniformly skip
them (surface a fatal condition). -/
def FatalAfterBound : Prop :=
  ∃ b : Nat, 0 < b ∧ ∀ (env : Env) (w : World),
    ingestRun env w (List.replicate b none) ≠ (w, List.replicate b IngestOutcome.decodeError)

/-! Concrete fixtures used by witnesses and counterexamples. -/

/-- The empty starting world: empty journal, no calls made. -/
def w0 : World := { journal := [], enrichCalls := 0, sendCalls := [], sleeps := [], uuidCalls := 0 }

/-- A payment event whose object_id is not a parseable UUID
(the shape used throughout the repository's demo data). -/
def evP1 : DomainEvent :=
  { id := 1, event_type := "payment.succeeded", object_id := "P1", merchant_id := "M1",
    payload := "opaque" }

/-- A payment event whose object_id is a canonical UUID string. -/
def evU : DomainEvent :=
  { id := 2, event_type := "payment.succeeded",
    object_id := "123e4567-e89b-12d3-a456-426614174000", merchant_id := "M1",
    payload := "opaque" }

/-- A well-formed Sequin envelope carrying evP1. -/
def goodMsg : SequinMessage :=
  { record := evP1, metadata := "meta", action := "insert", changes := none }

/-- Environment whose delivery endpoint always fails (always 500) and
whose enrichment service always answers. -/
def envFail : Env :=
  { enrichResp := fun _ => some "pay", sendResp := fun _ => false,
    freshUuid := fun _ => "fu", now := fun _ => "t0" }

/-- Environment where everything succeeds; RNG draws are the u-sequence. -/
def envOk : Env :=
  { enrichResp := fun _ => some "pay", sendResp := fun _ => true,
    freshUuid := fun _ => "fu", now := fun _ => "t0" }

/-- Same visible world as envU2 except for the process RNG. -/
def envU1 : Env :=
  { enrichResp := fun _ => some "pay", sendResp := fun _ => true,
    freshUuid := fun _ => "11111111-1111-4111-8111-111111111111", now := fun _ => "t0" }

/-- Same visible world as envU1 except for the process RNG. -/
def envU2 : Env :=
  { enrichResp := fun _ => some "pay", sendResp := fun _ => true,
    freshUuid := fun _ => "22222222-2222-4222-8222-222222222222", now := fun _ => "t0" }

/-- Environment for C6: the underlying object's enriched view is "A" at
the first fetch and "B" afterwards (an out-of-band update between the
first and second delivery attempt); the first send fails, later sends
succeed. -/
def env6 : Env :=
  { enrichResp := fun n => if n == 0 then some "A" else some "B",
    sendResp := fun n => n != 0,
    freshUuid := fun _ => "f", now := fun _ => "t0" }

/-- Environment for C7: the first enrichment fetch fails transiently,
every later fetch would succeed, and the delivery endpoint always
succeeds. -/
def env7 : Env :=
  { enrichResp := fun n => if n == 0 then none else some "pay",
    sendResp := fun _ => true,
    freshUuid := fun _ => "f", now := fun _ => "t0" }

/-- The body sent (three times) when envFail drives evP1's delivery. -/
def bFail : WebhookBody :=
  { event_id := "fu", event_type := "payment.succeeded", payment := "pay" }

/-- The world produced by handle_event on evP1 under envFail: three
failed sends, two backoff sleeps, one enrichment call, two RNG draws,
and no journal entry. -/
def wFail1 : World :=
  { journal := [], enrichCalls := 1, sendCalls := [bFail, bFail, bFail],
    sleeps := [1000, 2000], uuidCalls := 2 }

/-- A journal entry recorded for evP1's identifier. -/
def pC1 : ProcessedEvent :=
  { event_id := "evt_P1", merchant_webhook_id := "wh_x", retries := 0, last_retry_at := "t" }

/-- A world whose journal already holds a delivered entry for evt_P1. -/
def wC1 : World :=
  { journal := [("evt_P1", pC1)], enrichCalls := 0, sendCalls := [], sleeps := [], uuidCalls := 0 }

/-! ### Journal (HashMap model) lemmas -/

theorem lookupJ_filter_ne (j : List (String × ProcessedEvent)) (k eid : String)
    (hk : k ≠ eid) :
    lookupJ (j.filter (fun q => q.1 ≠ eid)) k = lookupJ j k := by
  induction j with
  | nil => rfl
  | cons q rest ih =>
    obtain ⟨k1, v1⟩ := q
    by_cases h1 : k1 = eid
    · subst h1
      have hne : ¬ (k1 = k) := fun h => hk (h ▸ rfl)
      simp only [List.filter_cons]
      have hdec : (decide ¬(k1, v1).1 = k1) = false := by simp
      rw [hdec]
      simp only [Bool.false_eq_true, if_false, ih, lookupJ, hne]
    · simp only [List.filter_cons]
      have hdec : (decide ¬(k1, v1).1 = eid) = true := by simpa using h1
      rw [hdec]
      simp only [if_true, lookupJ, ih]

theorem lookupJ_insertJ_ne (j : List (String × ProcessedEvent)) (k eid : String)
    (v : ProcessedEvent) (hk : k ≠ eid) :
    lookupJ (insertJ j eid v) k = lookupJ j k := by
  have hne : ¬ (eid = k) := fun h => hk (h ▸ rfl)
  simp only [insertJ, lookupJ, hne, if_false, lookupJ_filter_ne j k eid hk]

theorem insertJ_nodup (j : List (String × ProcessedEvent)) (k : String) (v : ProcessedEvent)
    (h : (j.map Prod.fst).Nodup) :
    ((insertJ j k v).map Prod.fst).Nodup := by
  simp only [insertJ, List.map_cons, List.nodup_cons]
  constructor
  · intro hmem
    rcases List.mem_map.mp hmem with ⟨q, hq, hq1⟩
    rcases List.mem_filter.mp hq with ⟨hq2, hcond⟩
    have hqk : q.1 ≠ k := by simpa using hcond
    exact hqk hq1
  · exact h.sublist (List.Sublist.map Prod.fst (List.filter_sublist j))

/-! ### deliveryLoop lemmas -/

/-- Full evaluation of the retry loop against an endpoint that fails on
every attempt: three sends of the identical body, backoff sleeps of
1000 ms and 2000 ms between consecutive attempts, then a permanent
failure, with the journal untouched. -/
theorem deliveryLoop_allfail (env : Env) (u t p eid mw : String) (w : World)
    (hs : ∀ n, env.sendResp n = false) :
    deliveryLoop env u t p eid mw 0 w =
      (Except.error ("Max retries exceeded: " ++ sendErrorMsg),
       { w with sendCalls := w.sendCalls ++ [⟨u, t, p⟩, ⟨u, t, p⟩, ⟨u, t, p⟩],
                sleeps := w.sleeps ++ [1000, 2000] }) := by
  rw [deliveryLoop]
  simp only [hs, Bool.false_eq_true, if_false, max_retries, backoff_ms]
  norm_num
  rw [deliveryLoop]
  simp only [hs, Bool.false_eq_true, if_false, max_retries, backoff_ms]
  norm_num
  rw [deliveryLoop]
  simp only [hs, Bool.false_eq_true, if_false, max_retries, backoff_ms]
  norm_num

/-- Master invariant of the retry loop, by induction on the remaining
budget: (1) it appends one or more copies of the one body it was given
to the send trace; (2) it makes no enrichment call; (3) if it returns an
error it leaves the journal unchanged; (4) it writes the journal only at
its own event_id; (5) it preserves key-uniqueness of the journal. -/
theorem deliveryLoop_spec (env : Env) (u t p eid mw : String) :
    ∀ (fuel retries : Nat) (w : World), max_retries - retries ≤ fuel →
      (∃ k, 1 ≤ k ∧ (deliveryLoop env u t p eid mw retries w).2.sendCalls
          = w.sendCalls ++ List.replicate k (WebhookBody.mk u t p)) ∧
      (deliveryLoop env u t p eid mw retries w).2.enrichCalls = w.enrichCalls ∧
      (∀ e, (deliveryLoop env u t p eid mw retries w).1 = Except.error e →
        (deliveryLoop env u t p eid mw retries w).2.journal = w.journal) ∧
      (∀ k2, k2 ≠ eid → lookupJ (deliveryLoop env u t p eid mw retries w).2.journal k2
          = lookupJ w.journal k2) ∧
      ((w.journal.map Prod.fst).Nodup →
        ((deliveryLoop env u t p eid mw retries w).2.journal.map Prod.fst).Nodup) := by
  intro fuel
  induction fuel with
  | zero =>
    intro retries w hle
    rw [deliveryLoop]
    have h3 : max_retries ≤ retries + 1 := by simp only [max_retries] at hle ⊢; omega
    by_cases hc : env.sendResp w.sendCalls.length
    · simp only [hc, if_true]
      refine ⟨⟨1, le_refl 1, ?_⟩, ?_, ?_, ?_, ?_⟩
      · simp
      · trivial
      · intro e he; exact absurd he (by simp)
      · intro k2 hk2; exact lookupJ_insertJ_ne _ _ _ _ hk2
      · intro hnd; exact insertJ_nodup _ _ _ hnd
    · simp only [hc, Bool.false_eq_true, if_false, h3, if_true]
      refine ⟨⟨1, le_refl 1, ?_⟩, ?_, ?_, ?_, ?_⟩
      · simp
      · trivial
      · intro e _; trivial
      · intro k2 _; trivial
      · intro hnd; exact hnd
  | succ n ih =>
    intro retries w hle
    rw [deliveryLoop]
    by_cases hc : env.sendResp w.sendCalls.length
    · simp only [hc, if_true]
      refine ⟨⟨1, le_refl 1, ?_⟩, ?_, ?_, ?_, ?_⟩
      · simp
      · trivial
      · intro e he; exact absurd he (by simp)
      · intro k2 hk2; exact lookupJ_insertJ_ne _ _ _ _ hk2
      · intro hnd; exact insertJ_nodup _ _ _ hnd
    · simp only [hc, Bool.false_eq_true, if_false]
      by_cases hb : max_retries ≤ retries + 1
      · simp only [hb, if_true]
        refine ⟨⟨1, le_refl 1, ?_⟩, ?_, ?_, ?_, ?_⟩
        · simp
        · trivial
        · intro e _; trivial
        · intro k2 _; trivial
        · intro hnd; exact hnd
      · simp only [hb, if_false]
        have hm : max_retries - (retries + 1) ≤ n := by
          simp only [max_retries] at hle hb ⊢; omega
        obtain ⟨⟨k, hk1, hks⟩, hen, herr, hlk, hnd⟩ := ih (retries + 1)
          { w with sendCalls := w.sendCalls ++ [⟨u, t, p⟩],
                   sleeps := w.sleeps ++ [backoff_ms (retries + 1)] } hm
        refine ⟨⟨k + 1, by omega, ?_⟩, ?_, ?_, ?_, ?_⟩
        · rw [hks]
          simp [List.replicate_succ, List.append_assoc]
        · exact hen
        · exact herr
        · exact hlk
        · exact hnd

theorem deliveryLoop_sendCalls (env : Env) (u t p eid mw : String) (retries : Nat) (w : World) :
    ∃ k, 1 ≤ k ∧ (deliveryLoop env u t p eid mw retries w).2.sendCalls
        = w.sendCalls ++ List.replicate k (WebhookBody.mk u t p) :=
  (deliveryLoop_spec env u t p eid mw max_retries retries w (Nat.sub_le _ _)).1

theorem deliveryLoop_enrich (env : Env) (u t p eid mw : String) (retries : Nat) (w : World) :
    (deliveryLoop env u t p eid mw retries w).2.enrichCalls = w.enrichCalls :=
  (deliveryLoop_spec env u t p eid mw max_retries retries w (Nat.sub_le _ _)).2.1

theorem deliveryLoop_error_journal (env : Env) (u t p eid mw : String) (retries : Nat)
    (w : World) : ∀ e, (deliveryLoop env u t p eid mw retries w).1 = Except.error e →
      (deliveryLoop env u t p eid mw retries w).2.journal = w.journal :=
  (deliveryLoop_spec env u t p eid mw max_retries retries w (Nat.sub_le _ _)).2.2.1

theorem deliveryLoop_lookup_ne (env : Env) (u t p eid mw : String) (retries : Nat)
    (w : World) : ∀ k2, k2 ≠ eid →
      lookupJ (deliveryLoop env u t p eid mw retries w).2.journal k2 = lookupJ w.journal k2 :=
  (deliveryLoop_spec env u t p eid mw max_retries retries w (Nat.sub_le _ _)).2.2.2.1

theorem deliveryLoop_nodup (env : Env) (u t p eid mw : String) (retries : Nat) (w : World) :
    (w.journal.map Prod.fst).Nodup →
      ((deliveryLoop env u t p eid mw retries w).2.journal.map Prod.fst).Nodup :=
  (deliveryLoop_spec env u t p eid mw max_retries retries w (Nat.sub_le _ _)).2.2.2.2

/-! ### handle_event lemmas -/

theorem handle_event_hit (env : Env) (w : World) (eid : String) (ev : DomainEvent)
    (q : ProcessedEvent) (h : lookupJ w.journal eid = some q) :
    handle_event env w eid ev = (Except.ok (), w) := by
  simp only [handle_event, h]

theorem handle_event_enrich_fail (env : Env) (w : World) (eid : String) (ev : DomainEvent)
    (hl : lookupJ w.journal eid = none)
    (he : env.enrichResp w.enrichCalls = none) :
    handle_event env w eid ev =
      (Except.error enrichErrorMsg, { w with enrichCalls := w.enrichCalls + 1 }) := by
  simp only [handle_event, hl, he]

theorem handle_event_enrichOnce (env : Env) (w : World) (eid : String) (ev : DomainEvent)
    (hl : lookupJ w.journal eid = none) :
    (handle_event env w eid ev).2.enrichCalls = w.enrichCalls + 1 := by
  simp only [handle_event, hl]
  split
  · simp
  · split <;> simp [deliveryLoop_enrich]

theorem handle_event_error_journal (env : Env) (w : World) (eid : String) (ev : DomainEvent) :
    ∀ e, (handle_event env w eid ev).1 = Except.error e →
      (handle_event env w eid ev).2.journal = w.journal := by
  intro e he
  cases hl : lookupJ w.journal eid with
  | some q =>
    rw [handle_event_hit env w eid ev q hl] at he
    exact absurd he (by simp)
  | none =>
    simp only [handle_event, hl] at he ⊢
    cases henr : env.enrichResp w.enrichCalls with
    | none => simp [henr]
    | some p =>
      simp only [henr] at he ⊢
      cases hu : uuidParse ev.object_id with
      | some u =>
        simp only [hu] at he ⊢
        exact deliveryLoop_error_journal _ _ _ _ _ _ _ _ e he
      | none =>
        simp only [hu] at he ⊢
        exact deliveryLoop_error_journal _ _ _ _ _ _ _ _ e he

theorem handle_event_journal_preserve (env : Env) (w : World) (eid : String) (ev : DomainEvent)
    (k : String) (q : ProcessedEvent) (h : lookupJ w.journal k = some q) :
    lookupJ (handle_event env w eid ev).2.journal k = some q := by
  cases hl : lookupJ w.journal eid with
  | some r => rw [handle_event_hit env w eid ev r hl]; exact h
  | none =>
    have hk : k ≠ eid := by
      rintro rfl; rw [h] at hl; cases hl
    simp only [handle_event, hl]
    cases henr : env.enrichResp w.enrichCalls with
    | none => simpa using h
    | some p =>
      simp only [henr]
      cases hu : uuidParse ev.object_id with
      | some u =>
        simp only [hu]
        rw [deliveryLoop_lookup_ne _ _ _ _ _ _ _ _ k hk]
        simpa using h
      | none =>
        simp only [hu]
        rw [deliveryLoop_lookup_ne _ _ _ _ _ _ _ _ k hk]
        simpa using h

theorem handle_event_nodup (env : Env) (w : World) (eid : String) (ev : DomainEvent)
    (h : (w.journal.map Prod.fst).Nodup) :
    ((handle_event env w eid ev).2.journal.map Prod.fst).Nodup := by
  cases hl : lookupJ w.journal eid with
  | some r => rw [handle_event_hit env w eid ev r hl]; exact h
  | none =>
    simp only [handle_event, hl]
    cases henr : env.enrichResp w.enrichCalls with
    | none => simpa using h
    | some p =>
      simp only [henr]
      cases hu : uuidParse ev.object_id with
      | some u =>
        simp only [hu]
        exact deliveryLoop_nodup _ _ _ _ _ _ _ _ (by simpa using h)
      | none =>
        simp only [hu]
        exact deliveryLoop_nodup _ _ _ _ _ _ _ _ (by simpa using h)

theorem handle_event_bodies (env : Env) (w : World) (eid : String) (ev : DomainEvent)
    (p : String) (hl : lookupJ w.journal eid = none)
    (he : env.enrichResp w.enrichCalls = some p) :
    ∃ u k, 1 ≤ k ∧
      (handle_event env w eid ev).2.sendCalls
        = w.sendCalls ++ List.replicate k (WebhookBody.mk u ev.event_type p) ∧
      (∀ v, uuidParse ev.object_id = some v → u = v) := by
  simp only [handle_event, hl, he]
  cases hu : uuidParse ev.object_id with
  | some u =>
    simp only [hu]
    obtain ⟨k, hk1, hks⟩ := deliveryLoop_sendCalls env u ev.event_type p eid
      ("wh_" ++ env.freshUuid w.uuidCalls)
      0 { w with enrichCalls := w.enrichCalls + 1, uuidCalls := w.uuidCalls + 1 }
    refine ⟨u, k, hk1, ?_, ?_⟩
    · simpa using hks
    · intro v hv; exact Option.some.inj hv
  | none =>
    simp only [hu]
    obtain ⟨k, hk1, hks⟩ := deliveryLoop_sendCalls env (env.freshUuid (w.uuidCalls + 1))
      ev.event_type p eid ("wh_" ++ env.freshUuid w.uuidCalls)
      0 { w with enrichCalls := w.enrichCalls + 1, uuidCalls := w.uuidCalls + 1 + 1 }
    refine ⟨env.freshUuid (w.uuidCalls + 1), k, hk1, ?_, ?_⟩
    · simpa using hks
    · intro v hv; simp at hv

/-! ### Ingestion loop lemmas -/

theorem ingestRun_cons_none (env : Env) (w : World) (rest : List (Option SequinMessage)) :
    ingestRun env w (none :: rest) =
      ((ingestRun env w rest).1, IngestOutcome.decodeError :: (ingestRun env w rest).2) := rfl

theorem ingestRun_cons_some (env : Env) (w : World) (msg : SequinMessage)
    (rest : List (Option SequinMessage)) :
    ingestRun env w (some msg :: rest) =
      ((ingestRun env (handle_event env w (mkEventId msg.record) msg.record).2 rest).1,
        IngestOutcome.handled (mkEventId msg.record)
            (isOkE (handle_event env w (mkEventId msg.record) msg.record).1)
          :: (ingestRun env (handle_event env w (mkEventId msg.record) msg.record).2 rest).2) :=
  rfl

theorem ingestRun_replicate_none (env : Env) (w : World) :
    ∀ n, ingestRun env w (List.replicate n none)
      = (w, List.replicate n IngestOutcome.decodeError) := by
  intro n
  induction n with
  | zero => rfl
  | succ m ih => simp [List.replicate_succ, ingestRun_cons_none, ih]

/-! ### runEvents lemmas -/

theorem runEvents_preserve (env : Env) :
    ∀ (es : List DomainEvent) (w : World) (k : String) (q : ProcessedEvent),
      lookupJ w.journal k = some q →
      lookupJ (runEvents env w es).journal k = some q := by
  intro es
  induction es with
  | nil => intro w k q h; exact h
  | cons e rest ih =>
    intro w k q h
    exact ih _ k q (handle_event_journal_preserve env w (mkEventId e) e k q h)

theorem runEvents_nodup (env : Env) :
    ∀ (es : List DomainEvent) (w : World),
      (w.journal.map Prod.fst).Nodup →
      ((runEvents env w es).journal.map Prod.fst).Nodup := by
  intro es
  induction es with
  | nil => intro w h; exact h
  | cons e rest ih =>
    intro w h
    exact ih _ (handle_event_nodup env w (mkEventId e) e h)

/-! ### Path-specific evaluations of the retry loop and handle_event -/

theorem deliveryLoop_first_success (env : Env) (u t p eid mw : String) (retries : Nat)
    (w : World) (hs : env.sendResp w.sendCalls.length = true) :
    deliveryLoop env u t p eid mw retries w =
      (Except.ok (), { w with
        journal := insertJ w.journal eid ⟨eid, mw, retries, env.now w.sendCalls.length⟩,
        sendCalls := w.sendCalls ++ [⟨u, t, p⟩] }) := by
  rw [deliveryLoop]
  simp only [hs, if_true]

theorem handle_event_allfail (env : Env) (w : World) (eid : String) (ev : DomainEvent)
    (p : String) (hj : lookupJ w.journal eid = none)
    (he : env.enrichResp w.enrichCalls = some p)
    (hs : ∀ n, env.sendResp n = false) :
    (handle_event env w eid ev).1 = Except.error ("Max retries exceeded: " ++ sendErrorMsg) ∧
    (handle_event env w eid ev).2.sendCalls.length = w.sendCalls.length + 3 ∧
    (handle_event env w eid ev).2.sleeps = w.sleeps ++ [1000, 2000] ∧
    (handle_event env w eid ev).2.journal = w.journal := by
  simp only [handle_event, hj, he]
  cases hu : uuidParse ev.object_id with
  | some u =>
    simp only [hu]
    rw [deliveryLoop_allfail _ _ _ _ _ _ _ hs]
    refine ⟨rfl, by simp, rfl, rfl⟩
  | none =>
    simp only [hu]
    rw [deliveryLoop_allfail _ _ _ _ _ _ _ hs]
    refine ⟨rfl, by simp, rfl, rfl⟩

theorem handle_event_first_success (env : Env) (w : World) (eid : String) (ev : DomainEvent)
    (p : String) (hj : lookupJ w.journal eid = none)
    (he : env.enrichResp w.enrichCalls = some p)
    (hu : uuidParse ev.object_id = none)
    (hs : env.sendResp w.sendCalls.length = true) :
    handle_event env w eid ev =
      (Except.ok (), { w with
        journal := insertJ w.journal eid
          ⟨eid, "wh_" ++ env.freshUuid w.uuidCalls, 0, env.now w.sendCalls.length⟩,
        enrichCalls := w.enrichCalls + 1,
        sendCalls := w.sendCalls ++ [⟨env.freshUuid (w.uuidCalls + 1), ev.event_type, p⟩],
        uuidCalls := w.uuidCalls + 2 }) := by
  simp only [handle_event, hj, he, hu]
  rw [deliveryLoop_first_success]
  exact hs

theorem deliveryLoop_fail_then_success (env : Env) (u t p eid mw : String) (w : World)
    (h0 : env.sendResp w.sendCalls.length = false)
    (h1 : env.sendResp (w.sendCalls.length + 1) = true) :
    deliveryLoop env u t p eid mw 0 w =
      (Except.ok (), { w with
        journal := insertJ w.journal eid ⟨eid, mw, 1, env.now (w.sendCalls.length + 1)⟩,
        sendCalls := w.sendCalls ++ [⟨u, t, p⟩, ⟨u, t, p⟩],
        sleeps := w.sleeps ++ [1000] }) := by
  rw [deliveryLoop]
  simp only [h0, Bool.false_eq_true, if_false, max_retries, backoff_ms]
  norm_num
  rw [deliveryLoop_first_success _ _ _ _ _ _ _ _ (by simpa using h1)]
  simp [List.length_append, List.append_assoc]

theorem handle_event_fail_then_success (env : Env) (w : World) (eid : String) (ev : DomainEvent)
    (p : String) (hj : lookupJ w.journal eid = none)
    (he : env.enrichResp w.enrichCalls = some p)
    (hu : uuidParse ev.object_id = none)
    (h0 : env.sendResp w.sendCalls.length = false)
    (h1 : env.sendResp (w.sendCalls.length + 1) = true) :
    handle_event env w eid ev =
      (Except.ok (), { w with
        journal := insertJ w.journal eid
          ⟨eid, "wh_" ++ env.freshUuid w.uuidCalls, 1, env.now (w.sendCalls.length + 1)⟩,
        enrichCalls := w.enrichCalls + 1,
        sendCalls := w.sendCalls ++ [⟨env.freshUuid (w.uuidCalls + 1), ev.event_type, p⟩,
                                     ⟨env.freshUuid (w.uuidCalls + 1), ev.event_type, p⟩],
        sleeps := w.sleeps ++ [1000],
        uuidCalls := w.uuidCalls + 2 }) := by
  simp only [handle_event, hj, he, hu]
  rw [deliveryLoop_fail_then_success]
  · exact h0
  · exact h1

/-! ### Concrete evaluations -/

theorem handle_event_envFail_eval :
    handle_event envFail w0 (mkEventId goodMsg.record) goodMsg.record =
      (Except.error ("Max retries exceeded: " ++ sendErrorMsg), wFail1) := by
  have hj : lookupJ w0.journal (mkEventId goodMsg.record) = none := rfl
  have he : envFail.enrichResp w0.enrichCalls = some "pay" := rfl
  have hu : uuidParse goodMsg.record.object_id = none := by rfl
  simp only [handle_event, hj, he, hu]
  rw [deliveryLoop_allfail _ _ _ _ _ _ _ (fun _ => rfl)]
  rfl

/-! ### Claims -/

/-- Claim C1: for every event whose DeliveryIdentifier already has a
journal entry (all journal entries record delivered events), handle_event
returns success immediately and leaves the world untouched — in
particular it makes no enrichment call and no outbound delivery call. -/
theorem C1_delivered_short_circuit (env : Env) (w : World) (eid : String) (ev : DomainEvent)
    (q : ProcessedEvent) (h : lookupJ w.journal eid = some q) :
    handle_event env w eid ev = (Except.ok (), w) :=
  handle_event_hit env w eid ev q h

/-- Witness for C1 at a concrete journal hit. -/
theorem C1_witness :
    lookupJ wC1.journal "evt_P1" = some pC1 ∧
    handle_event envOk wC1 "evt_P1" evP1 = (Except.ok (), wC1) :=
  ⟨rfl, C1_delivered_short_circuit envOk wC1 "evt_P1" evP1 pC1 rfl⟩

/-- Counterexample to Claim C2: an event whose delivery endpoint always
fails is received by the ingestion loop, yet after the loop has handled
it the journal holds no record for it whatsoever — it is silently
dropped rather than delivered or recorded as permanently failed. -/
theorem C2_counterexample : ¬ HandledImpliesRecorded := by
  intro h
  have h2 := h envFail w0 [some goodMsg] goodMsg (List.mem_singleton.mpr rfl)
  apply h2
  rw [ingestRun_cons_some, handle_event_envFail_eval]
  rfl

/-- Claim C2 (amended): the ingestion loop performs no checkpoint
bookkeeping of its own and merely logs a handle_event failure: the
failing event contributes a failure outcome, the journal is unchanged
(no failure record exists), and the loop simply continues with the
remaining records. -/
theorem C2_failed_event_dropped (env : Env) (w w2 : World) (msg : SequinMessage)
    (recs : List (Option SequinMessage)) (e : String)
    (h : handle_event env w (mkEventId msg.record) msg.record = (Except.error e, w2)) :
    ingestRun env w (some msg :: recs) =
      ((ingestRun env w2 recs).1,
        IngestOutcome.handled (mkEventId msg.record) false :: (ingestRun env w2 recs).2) ∧
    w2.journal = w.journal := by
  constructor
  · rw [ingestRun_cons_some, h]
    simp [isOkE]
  · have h1 : (handle_event env w (mkEventId msg.record) msg.record).1 = Except.error e := by
      rw [h]
    have h2 : (handle_event env w (mkEventId msg.record) msg.record).2 = w2 := by rw [h]
    rw [← h2]
    exact handle_event_error_journal env w (mkEventId msg.record) msg.record e h1

/-- Witness for the amended C2 with the always-failing endpoint. -/
theorem C2_witness :
    (handle_event envFail w0 (mkEventId goodMsg.record) goodMsg.record =
      (Except.error ("Max retries exceeded: " ++ sendErrorMsg), wFail1)) ∧
    (ingestRun envFail w0 [some goodMsg] =
      ((ingestRun envFail wFail1 []).1,
        IngestOutcome.handled (mkEventId goodMsg.record) false
          :: (ingestRun envFail wFail1 []).2) ∧
      wFail1.journal = w0.journal) :=
  ⟨handle_event_envFail_eval,
    C2_failed_event_dropped envFail w0 wFail1 goodMsg [] _ handle_event_envFail_eval⟩

/-- Claim C3: against an endpoint that fails every attempt, handle_event
makes exactly max_retries = 3 outbound delivery attempts, sleeps 1000 ms
and then 2000 ms between consecutive attempts, and returns a permanent
failure. -/
theorem C3_retry_bound (env : Env) (w : World) (eid : String) (ev : DomainEvent) (p : String)
    (hj : lookupJ w.journal eid = none)
    (he : env.enrichResp w.enrichCalls = some p)
    (hs : ∀ n, env.sendResp n = false) :
    (∃ e, (handle_event env w eid ev).1 = Except.error e) ∧
    (handle_event env w eid ev).2.sendCalls.length = w.sendCalls.length + 3 ∧
    (handle_event env w eid ev).2.sleeps = w.sleeps ++ [1000, 2000] := by
  obtain ⟨h1, h2, h3, _⟩ := handle_event_allfail env w eid ev p hj he hs
  exact ⟨⟨_, h1⟩, h2, h3⟩

/-- Witness for C3 under the concrete always-failing environment. -/
theorem C3_witness :
    lookupJ w0.journal "evt_P1" = none ∧ (∀ n, envFail.sendResp n = false) ∧
    ((∃ e, (handle_event envFail w0 "evt_P1" evP1).1 = Except.error e) ∧
     (handle_event envFail w0 "evt_P1" evP1).2.sendCalls.length = w0.sendCalls.length + 3 ∧
     (handle_event envFail w0 "evt_P1" evP1).2.sleeps = w0.sleeps ++ [1000, 2000]) :=
  ⟨rfl, fun _ => rfl, C3_retry_bound envFail w0 "evt_P1" evP1 "pay" rfl rfl (fun _ => rfl)⟩

/-- Counterexample to Claim C4: after the retry budget is exhausted the
journal holds no entry at all for the identifier — no Failed state is
written. -/
theorem C4_counterexample : ¬ FailedEntryWritten := by
  intro h
  have h2 := h envFail w0 (mkEventId goodMsg.record) goodMsg.record
    ("Max retries exceeded: " ++ sendErrorMsg) wFail1 handle_event_envFail_eval
  exact h2 rfl

/-- Claim C4 (amended): exhausting the retry budget returns a permanent
failure but writes no journal entry, and a subsequent processing of the
same DeliveryIdentifier does not return the prior failure — it performs
a fresh enrichment call (and hence a fresh delivery sequence). -/
theorem C4_exhaustion_unrecorded (env : Env) (w : World) (eid : String) (ev : DomainEvent)
    (p : String) (hj : lookupJ w.journal eid = none)
    (he : ∀ n, env.enrichResp n = some p)
    (hs : ∀ n, env.sendResp n = false) :
    (∃ e, (handle_event env w eid ev).1 = Except.error e) ∧
    (handle_event env w eid ev).2.journal = w.journal ∧
    (handle_event env (handle_event env w eid ev).2 eid ev).2.enrichCalls =
      (handle_event env w eid ev).2.enrichCalls + 1 := by
  obtain ⟨h1, _, _, h4⟩ := handle_event_allfail env w eid ev p hj (he _) hs
  refine ⟨⟨_, h1⟩, h4, ?_⟩
  exact handle_event_enrichOnce env _ eid ev (by rw [h4]; exact hj)

/-- Witness for the amended C4. -/
theorem C4_witness :
    lookupJ w0.journal "evt_P1" = none ∧
    ((∃ e, (handle_event envFail w0 "evt_P1" evP1).1 = Except.error e) ∧
     (handle_event envFail w0 "evt_P1" evP1).2.journal = w0.journal ∧
     (handle_event envFail (handle_event envFail w0 "evt_P1" evP1).2 "evt_P1" evP1).2.enrichCalls =
       (handle_event envFail w0 "evt_P1" evP1).2.enrichCalls + 1) :=
  ⟨rfl, C4_exhaustion_unrecorded envFail w0 "evt_P1" evP1 "pay" rfl (fun _ => rfl) (fun _ => rfl)⟩

/-- Counterexample to Claim C5: for an objectId that is not a parseable
UUID ("P1"), the outbound event_id comes from the process RNG — two runs
that differ only in the RNG draw send different event_ids for the same
event, so the event_id is not a deterministic function of objectId and
is not stable across process restarts or log redeliveries. -/
theorem C5_counterexample : ¬ EventIdFromObjectId := by
  rintro ⟨f, hf⟩
  have h1 := hf envU1 w0 "evt_P1" evP1
  have h2 := hf envU2 w0 "evt_P1" evP1
  rw [handle_event_first_success envU1 w0 "evt_P1" evP1 "pay" rfl rfl (by rfl) rfl] at h1
  rw [handle_event_first_success envU2 w0 "evt_P1" evP1 "pay" rfl rfl (by rfl) rfl] at h2
  have e1 := h1 ⟨"11111111-1111-4111-8111-111111111111", evP1.event_type, "pay"⟩ (by simp [w0, envU1])
  have e2 := h2 ⟨"22222222-2222-4222-8222-222222222222", evP1.event_type, "pay"⟩ (by simp [w0, envU2])
  exact absurd (e1.trans e2.symm) (by decide)

/-- Claim C5 (amended): within one handle_event invocation every
outbound body carries one and the same event_id, and whenever the
objectId parses as a UUID that event_id is exactly the parsed UUID
(hence deterministic); only non-UUID objectIds fall back to a fresh
random value. -/
theorem C5_stable_event_id (env : Env) (w : World) (eid : String) (ev : DomainEvent)
    (p : String) (hj : lookupJ w.journal eid = none)
    (he : env.enrichResp w.enrichCalls = some p) :
    ∃ u, (∀ b ∈ ((handle_event env w eid ev).2.sendCalls).drop w.sendCalls.length,
            b.event_id = u) ∧
      (∀ v, uuidParse ev.object_id = some v → u = v) := by
  obtain ⟨u, k, hk1, hsc, huv⟩ := handle_event_bodies env w eid ev p hj he
  refine ⟨u, ?_, huv⟩
  intro b hb
  rw [hsc, List.drop_left] at hb
  rw [List.eq_of_mem_replicate hb]

/-- Witness for the amended C5 at a UUID-shaped objectId. -/
theorem C5_witness :
    lookupJ w0.journal "evt_U" = none ∧ envU1.enrichResp w0.enrichCalls = some "pay" ∧
    (∃ u, (∀ b ∈ ((handle_event envU1 w0 "evt_U" evU).2.sendCalls).drop w0.sendCalls.length,
            b.event_id = u) ∧
      (∀ v, uuidParse evU.object_id = some v → u = v)) :=
  ⟨rfl, rfl, C5_stable_event_id envU1 w0 "evt_U" evU "pay" rfl rfl⟩

/-- Counterexample to Claim C6: under env6 the object's enriched view
changes from "A" to "B" between the first and second delivery attempt,
yet handle_event performs a single enrichment fetch for two outbound
attempts — the second attempt reuses the stale payload instead of
fetching freshly. -/
theorem C6_counterexample : ¬ FreshPerAttempt := by
  intro h
  have h2 := h env6 w0 "evt_P1" evP1
  rw [handle_event_fail_then_success env6 w0 "evt_P1" evP1 "A" rfl rfl (by rfl) rfl rfl] at h2
  simp [w0] at h2

/-- Claim C6 (amended): the payload is fetched exactly once per
handle_event invocation, before the retry loop; every outbound body of
that invocation carries that one fetched value. -/
theorem C6_single_fetch (env : Env) (w : World) (eid : String) (ev : DomainEvent) (p : String)
    (hj : lookupJ w.journal eid = none)
    (he : env.enrichResp w.enrichCalls = some p) :
    (handle_event env w eid ev).2.enrichCalls = w.enrichCalls + 1 ∧
    ∀ b ∈ ((handle_event env w eid ev).2.sendCalls).drop w.sendCalls.length, b.payment = p := by
  refine ⟨handle_event_enrichOnce env w eid ev hj, ?_⟩
  obtain ⟨u, k, hk1, hsc, _⟩ := handle_event_bodies env w eid ev p hj he
  intro b hb
  rw [hsc, List.drop_left] at hb
  rw [List.eq_of_mem_replicate hb]

/-- Witness for the amended C6: both attempts of the env6 run carry the
payload "A" fetched once. -/
theorem C6_witness :
    lookupJ w0.journal "evt_P1" = none ∧ env6.enrichResp w0.enrichCalls = some "A" ∧
    ((handle_event env6 w0 "evt_P1" evP1).2.enrichCalls = w0.enrichCalls + 1 ∧
     ∀ b ∈ ((handle_event env6 w0 "evt_P1" evP1).2.sendCalls).drop w0.sendCalls.length,
       b.payment = "A") :=
  ⟨rfl, rfl, C6_single_fetch env6 w0 "evt_P1" evP1 "A" rfl rfl⟩

/-- Counterexample to Claim C7: a transient enrichment failure (first
fetch fails, any later fetch would succeed, the endpoint always accepts)
is not retried: handle_event stops after the single failed fetch. -/
theorem C7_counterexample : ¬ EnrichRetried := by
  intro h
  have h2 := h env7 w0 "evt_P1" evP1 rfl rfl
    (fun n hn => ⟨"pay", by simp [env7]; simpa using hn⟩) (fun _ => rfl)
  rw [handle_event_enrich_fail env7 w0 "evt_P1" evP1 rfl rfl] at h2
  simp [w0] at h2

/-- Claim C7 (amended): an enrichment failure aborts handle_event
immediately with an error; the only world change is the enrichment call
counter — no delivery attempt, no backoff sleep, no journal write. -/
theorem C7_enrich_abort (env : Env) (w : World) (eid : String) (ev : DomainEvent)
    (hj : lookupJ w.journal eid = none)
    (he : env.enrichResp w.enrichCalls = none) :
    handle_event env w eid ev =
      (Except.error enrichErrorMsg, { w with enrichCalls := w.enrichCalls + 1 }) :=
  handle_event_enrich_fail env w eid ev hj he

/-- Witness for the amended C7. -/
theorem C7_witness :
    lookupJ w0.journal "evt_P1" = none ∧ env7.enrichResp w0.enrichCalls = none ∧
    handle_event env7 w0 "evt_P1" evP1 =
      (Except.error enrichErrorMsg, { w0 with enrichCalls := w0.enrichCalls + 1 }) :=
  ⟨rfl, rfl, C7_enrich_abort env7 w0 "evt_P1" evP1 rfl rfl⟩

/-- Counterexample to Claim C8: there is no bound after which
consecutive malformed records make the loop surface a fatal condition —
for every count the loop uniformly logs-and-skips each malformed record
and its state is unchanged. -/
theorem C8_counterexample : ¬ FatalAfterBound := by
  rintro ⟨b, hb, hall⟩
  exact hall envOk w0 (ingestRun_replicate_none envOk w0 b)

/-- Claim C8 (amended): every malformed record is logged and skipped so
the next well-formed record is still processed, but no count of
consecutive malformed records ever surfaces a fatal condition: after n
malformed records the loop still hands the following well-formed record
to handle_event, producing one outcome per record. -/
theorem C8_skip_and_continue (env : Env) (w : World) (n : Nat) (msg : SequinMessage) :
    ingestRun env w (List.replicate n none ++ [some msg]) =
      ((handle_event env w (mkEventId msg.record) msg.record).2,
        List.replicate n IngestOutcome.decodeError ++
          [IngestOutcome.handled (mkEventId msg.record)
            (isOkE (handle_event env w (mkEventId msg.record) msg.record).1)]) := by
  induction n with
  | zero => rfl
  | succ m ih =>
    simp only [List.replicate_succ, List.cons_append, ingestRun_cons_none, ih]

/-- Claim C9: the journal maps each DeliveryIdentifier to at most one
entry (its key list stays duplicate-free), and once an entry exists for
an identifier no later handle_event invocation modifies, replaces or
removes it — over every sequence of invocations. -/
theorem C9_journal_append_only (env : Env) (w : World) (es : List DomainEvent)
    (k : String) (q : ProcessedEvent)
    (hnd : (w.journal.map Prod.fst).Nodup)
    (h : lookupJ w.journal k = some q) :
    lookupJ (runEvents env w es).journal k = some q ∧
    ((runEvents env w es).journal.map Prod.fst).Nodup :=
  ⟨runEvents_preserve env es w k q h, runEvents_nodup env es w hnd⟩

/-- Witness for C9: an existing entry survives two further invocations
(one redelivery of the same event, one fresh event) unchanged. -/
theorem C9_witness :
    (wC1.journal.map Prod.fst).Nodup ∧ lookupJ wC1.journal "evt_P1" = some pC1 ∧
    (lookupJ (runEvents envOk wC1 [evP1, evU]).journal "evt_P1" = some pC1 ∧
      ((runEvents envOk wC1 [evP1, evU]).journal.map Prod.fst).Nodup) :=
  ⟨by simp [wC1], rfl,
    C9_journal_append_only envOk wC1 [evP1, evU] "evt_P1" pC1 (by simp [wC1]) rfl⟩

/-- Claim C10: whenever handle_event returns an error (enrichment
failure or retry exhaustion) the journal is left completely unchanged,
and a later redelivery of the same event starts the full sequence over:
it performs a fresh enrichment call (and the retry loop always starts at
attempt count zero). -/
theorem C10_error_journal_unchanged (env : Env) (w : World) (eid : String) (ev : DomainEvent)
    (e : String) (w2 : World)
    (h : handle_event env w eid ev = (Except.error e, w2)) :
    w2.journal = w.journal ∧
    (lookupJ w.journal eid = none →
      (handle_event env w2 eid ev).2.enrichCalls = w2.enrichCalls + 1) := by
  have h1 : (handle_event env w eid ev).1 = Except.error e := by rw [h]
  have h2 : (handle_event env w eid ev).2 = w2 := by rw [h]
  have hj : w2.journal = w.journal := by
    rw [← h2]
    exact handle_event_error_journal env w eid ev e h1
  exact ⟨hj, fun hl => handle_event_enrichOnce env w2 eid ev (by rw [hj]; exact hl)⟩

/-- Witness for C10 at the concrete exhausted-retries run. -/
theorem C10_witness :
    (handle_event envFail w0 (mkEventId goodMsg.record) goodMsg.record =
      (Except.error ("Max retries exceeded: " ++ sendErrorMsg), wFail1)) ∧
    (wFail1.journal = w0.journal ∧
      (lookupJ w0.journal (mkEventId goodMsg.record) = none →
        (handle_event envFail wFail1 (mkEventId goodMsg.record) goodMsg.record).2.enrichCalls
          = wFail1.enrichCalls + 1)) :=
  ⟨handle_event_envFail_eval,
    C10_error_journal_unchanged envFail w0 (mkEventId goodMsg.record) goodMsg.record
      ("Max retries exceeded: " ++ sendErrorMsg) wFail1 handle_event_envFail_eval⟩
